import Mathlib

/-!
Shallow embedding of the interactive controller of the `fm` terminal file
manager (package `main`, file `update.go`), together with the small pieces of
the external collaborators (`bubbles` viewport and textinput) that the
controller calls.  Filesystem operations are represented by an environment
(`Env.fsList` stands for `filesystem.GetDirectoryListing`) and an explicit
list of issued side effects; a Go runtime index-out-of-range failure is
represented by `Option.none`.
-/

namespace FM

/-- One directory entry as the controller sees it (`fs.FileInfo`: only the
`Name()` and `IsDir()` observations are used by `update.go`). -/
structure Entry where
  Name : String
  IsDir : Bool
  deriving DecidableEq, Repr

/-- State of the external `bubbles` viewport (`viewport.Model`) used by the
controller: its width, height, vertical offset `YOffset`, `YPosition`, and
the number of content lines last set with `SetContent` (`nlines`). -/
structure ViewportModel where
  Width : Int
  Height : Int
  YOffset : Int
  YPosition : Int
  nlines : Int
  deriving DecidableEq, Repr

/-- State of the external `bubbles` text input (`textinput.Model`) as observed
by the controller: its value, placeholder and focus flag. -/
structure TextInputModel where
  Value : String
  Placeholder : String
  Focused : Bool
  deriving DecidableEq, Repr

/-- The controller's model (struct `model` in the source): directory listing,
cursor, viewport, text input, screen dimensions and the four mode flags. -/
structure model where
  Files : List Entry
  Cursor : Int
  Viewport : ViewportModel
  TextInput : TextInputModel
  ScreenWidth : Int
  ScreenHeight : Int
  Move : Bool
  Rename : Bool
  Delete : Bool
  ShowHelp : Bool
  deriving DecidableEq, Repr

/-- Events consumed by `Update`: a key press (identified by the string
`tea.KeyMsg.String()` returns), the asynchronous listing result message
(`fileStatus`), and a terminal resize (`tea.WindowSizeMsg`). -/
inductive Event where
  | key (k : String)
  | fileStatus (files : List Entry)
  | resize (w h : Int)
  deriving DecidableEq, Repr

/-- Side-effecting filesystem calls issued synchronously by `Update`, in
order: `GetDirectoryListing`, `RenameDirOrFile`, `MoveDir`, `CopyFile`,
`DeleteDirectory`, `DeleteFile`. -/
inductive Effect where
  | getListing (dir : String)
  | renameEff (src dst : String)
  | moveDirEff (src dst : String)
  | copyFileEff (src dst : String) (overwrite : Bool)
  | deleteDirEff (name : String)
  | deleteFileEff (name : String)
  deriving DecidableEq, Repr

/-- The outcome of one `Update` call: the next model, the filesystem effects
issued during the call, and whether `tea.Quit` was returned. -/
structure UpdateResult where
  model : model
  effects : List Effect
  quit : Bool
  deriving DecidableEq, Repr

/-- The external world `update.go` calls into: `fsList` is
`filesystem.GetDirectoryListing`, and `helpLines` the number of lines of the
constant help text `components.Help()` given to `Viewport.SetContent`. -/
structure Env where
  fsList : String → List Entry
  helpLines : Int

/-- An arbitrary concrete environment (every listing empty) used for concrete
evaluations. -/
def env0 : Env := ⟨fun _ => [], 0⟩

/-- `viewport.LineUp(1)` of the external bubbles viewport: move the offset one
line up, doing nothing when already at the top. -/
def lineUp1 (v : ViewportModel) : ViewportModel :=
  if v.YOffset ≤ 0 then v
  else { v with YOffset := max (v.YOffset - 1) 0 }

/-- `viewport.LineDown(1)` of the external bubbles viewport: move the offset
one line down, doing nothing when already at the bottom of the content. -/
def lineDown1 (v : ViewportModel) : ViewportModel :=
  if v.YOffset ≥ v.nlines - v.Height then v
  else { v with YOffset := min (v.YOffset + 1) (v.nlines - v.Height) }

/-- `(*model).fixViewport(moveCursor)` from `update.go`: with
`moveCursor = true` clamp the cursor into the visible band, otherwise scroll
the viewport by at most one line toward the cursor. -/
def fixViewport (m : model) (moveCursor : Bool) : model :=
  if moveCursor then
    if m.Cursor < m.Viewport.YOffset then { m with Cursor := m.Viewport.YOffset }
    else if m.Cursor > m.Viewport.Height + m.Viewport.YOffset - 1 then
      { m with Cursor := m.Viewport.Height + m.Viewport.YOffset - 1 }
    else m
  else
    if m.Cursor < m.Viewport.YOffset then { m with Viewport := lineUp1 m.Viewport }
    else if m.Cursor > m.Viewport.Height + m.Viewport.YOffset - 1 then
      { m with Viewport := lineDown1 m.Viewport }
    else m

/-- `(*model).fixCursor()` from `update.go`: wrap the cursor to 0 past the
end and to `len(Files)-1` below 0. -/
def fixCursor (m : model) : model :=
  if m.Cursor > (m.Files.length : Int) - 1 then { m with Cursor := 0 }
  else if m.Cursor < 0 then { m with Cursor := (m.Files.length : Int) - 1 }
  else m

/-- The external bubbles `textinput.Model.Update`: when focused, a printable
single-rune key (including space) is appended to the value and backspace
deletes the last character; every other message leaves the value alone, and
the focus flag is never changed by `Update` itself. -/
def textinputUpdate (msg : Event) (t : TextInputModel) : TextInputModel :=
  match msg with
  | .key k =>
    if t.Focused = true then
      if k.length = 1 then { t with Value := t.Value ++ k }
      else if k = "backspace" then { t with Value := t.Value.dropRight 1 }
      else t
    else t
  | _ => t

/-- The unconditional `m.TextInput, _ = m.TextInput.Update(msg)` step at the
bottom of `Update`. -/
def routeModel (msg : Event) (m : model) : model :=
  { m with TextInput := textinputUpdate msg m.TextInput }

/-- `textinput.Model.Blur()`: drop focus, value untouched. -/
def blur (t : TextInputModel) : TextInputModel := { t with Focused := false }

/-- The `m.TextInput.Placeholder = p` assignment followed by
`m.TextInput.Focus()` performed by the `m`, `r` and `d` key handlers; the
value is not touched. -/
def focusWith (p : String) (t : TextInputModel) : TextInputModel :=
  { t with Placeholder := p, Focused := true }

/-- Go slice indexing `Files[Cursor]`: `none` models the runtime
index-out-of-range failure. -/
def idx? (l : List Entry) (i : Int) : Option Entry :=
  if 0 ≤ i then l.get? i.toNat else none

/-- The up (`"up"`/`"k"`) key handler: when the input is unfocused,
decrement the cursor, wrap it with `fixCursor` and scroll with
`fixViewport(false)`; then route the key to the text input. -/
def upCase (m : model) (k : String) : Option UpdateResult :=
  some ⟨routeModel (.key k)
          (if m.TextInput.Focused = false then
            fixViewport (fixCursor { m with Cursor := m.Cursor - 1 }) false
          else m),
        [], false⟩

/-- The down (`"down"`/`"j"`) key handler, symmetric to `upCase`. -/
def downCase (m : model) (k : String) : Option UpdateResult :=
  some ⟨routeModel (.key k)
          (if m.TextInput.Focused = false then
            fixViewport (fixCursor { m with Cursor := m.Cursor + 1 }) false
          else m),
        [], false⟩

/-- The enter/space key handler (`update.go` lines 82-129): it always indexes
`m.Files[m.Cursor]` first, then either descends into a directory, commits the
active prompt (rename / move / delete with its `"y"` confirmation), or
returns the model unchanged without routing the key to the input. -/
def enterCase (env : Env) (m : model) (k : String) : Option UpdateResult :=
  match idx? m.Files m.Cursor with
  | none => none
  | some e =>
    if e.IsDir = true ∧ m.TextInput.Focused = false then
      some ⟨routeModel (.key k) { m with Files := env.fsList e.Name, Cursor := 0 },
            [.getListing e.Name], false⟩
    else if m.Rename = true then
      some ⟨routeModel (.key k)
              { m with Files := env.fsList "./", TextInput := blur m.TextInput,
                       Rename := false },
            [.renameEff e.Name m.TextInput.Value, .getListing "./"], false⟩
    else if m.Move = true then
      if e.IsDir = true then
        some ⟨routeModel (.key k)
                { m with Files := env.fsList "./", TextInput := blur m.TextInput,
                         Move := false },
              [.moveDirEff e.Name m.TextInput.Value, .getListing "./"], false⟩
      else
        some ⟨routeModel (.key k)
                { m with Files := env.fsList "./", TextInput := blur m.TextInput,
                         Move := false },
              [.copyFileEff e.Name m.TextInput.Value true, .getListing "./"], false⟩
    else if m.Delete = true then
      if e.IsDir = true then
        if m.TextInput.Value = "y" then
          some ⟨routeModel (.key k)
                  { m with Files := env.fsList "./", TextInput := blur m.TextInput,
                           Delete := false },
                [.deleteDirEff e.Name, .getListing "./"], false⟩
        else
          some ⟨routeModel (.key k)
                  { m with Files := env.fsList "./", TextInput := blur m.TextInput,
                           Delete := false },
                [.getListing "./"], false⟩
      else
        if m.TextInput.Value = "y" then
          some ⟨routeModel (.key k)
                  { m with Files := env.fsList "./", TextInput := blur m.TextInput,
                           Delete := false },
                [.deleteFileEff e.Name, .getListing "./"], false⟩
        else
          some ⟨routeModel (.key k)
                  { m with Files := env.fsList "./", TextInput := blur m.TextInput,
                           Delete := false },
                [.getListing "./"], false⟩
    else
      some ⟨m, [], false⟩

/-- The parent-directory (`"h"`/`"backspace"`) key handler. -/
def parentCase (env : Env) (m : model) (k : String) : Option UpdateResult :=
  if m.TextInput.Focused = false then
    some ⟨routeModel (.key k) { m with Cursor := 0, Files := env.fsList ".." },
          [.getListing ".."], false⟩
  else some ⟨routeModel (.key k) m, [], false⟩

/-- The `"m"` key handler: enter move mode (guarded on the input being
unfocused). -/
def moveKeyCase (m : model) (k : String) : Option UpdateResult :=
  if m.TextInput.Focused = false then
    some ⟨routeModel (.key k)
            { m with Move := true, TextInput := focusWith "/usr/share/" m.TextInput },
          [], false⟩
  else some ⟨routeModel (.key k) m, [], false⟩

/-- The `"r"` key handler: enter rename mode (guarded on the input being
unfocused). -/
def renameKeyCase (m : model) (k : String) : Option UpdateResult :=
  if m.TextInput.Focused = false then
    some ⟨routeModel (.key k)
            { m with Rename := true, TextInput := focusWith "newfilename.ex" m.TextInput },
          [], false⟩
  else some ⟨routeModel (.key k) m, [], false⟩

/-- The `"d"` key handler: enter delete-confirm mode (guarded on the input
being unfocused). -/
def deleteKeyCase (m : model) (k : String) : Option UpdateResult :=
  if m.TextInput.Focused = false then
    some ⟨routeModel (.key k)
            { m with Delete := true, TextInput := focusWith "[y/n]" m.TextInput },
          [], false⟩
  else some ⟨routeModel (.key k) m, [], false⟩

/-- The `"i"` key handler: set the viewport content to the help text and show
help — with no focus guard. -/
def helpCase (env : Env) (m : model) (k : String) : Option UpdateResult :=
  some ⟨routeModel (.key k)
          { m with Viewport := { m.Viewport with nlines := env.helpLines },
                   ShowHelp := true },
        [], false⟩

/-- The `"esc"` key handler: clear every mode flag and blur the input. -/
def escCase (m : model) (k : String) : Option UpdateResult :=
  some ⟨routeModel (.key k)
          { m with Move := false, Rename := false, Delete := false, ShowHelp := false,
                   TextInput := blur m.TextInput },
        [], false⟩

/-- The `tea.KeyMsg` switch body of `Update` (`update.go` lines 66-162
followed by the text-input routing at lines 165-168), dispatching on the key
string. -/
def updateKey (env : Env) (m : model) (k : String) : Option UpdateResult :=
  if k = "ctrl+c" ∨ k = "q" then some ⟨m, [], true⟩
  else if k = "up" ∨ k = "k" then upCase m k
  else if k = "down" ∨ k = "j" then downCase m k
  else if k = "enter" ∨ k = " " then enterCase env m k
  else if k = "h" ∨ k = "backspace" then parentCase env m k
  else if k = "m" then moveKeyCase m k
  else if k = "r" then renameKeyCase m k
  else if k = "d" then deleteKeyCase m k
  else if k = "i" then helpCase env m k
  else if k = "esc" then escCase m k
  else some ⟨routeModel (.key k) m, [], false⟩

/-- `model.Update` from `update.go`: the global quit check (lines 45-51), the
`fileStatus` and `tea.WindowSizeMsg` cases (lines 53-64) and the key switch. -/
def Update (env : Env) (m : model) (msg : Event) : Option UpdateResult :=
  match msg with
  | .key k =>
    if k = "q" ∨ k = "ctrl+c" then some ⟨m, [], true⟩
    else updateKey env m k
  | .fileStatus files => some ⟨{ m with Files := files }, [], false⟩
  | .resize w h =>
    some ⟨routeModel (.resize w h)
            { m with ScreenWidth := w, ScreenHeight := h,
                     Viewport := ⟨w, h - 1, 0, 0, 0⟩ },
          [], false⟩

/-- Process a whole event sequence, propagating a runtime failure. -/
def applyEvents (env : Env) (m : model) (es : List Event) : Option model :=
  match es with
  | [] => some m
  | e :: rest =>
    match Update env m e with
    | none => none
    | some r => applyEvents env r.model rest

/-- Modelled from the spec: the initial model (`app.CreateModel` is not under
`src/`).  The application starts in Browse mode: no prompt flag set, help not
shown, the text input unfocused and empty, cursor 0 and an empty listing
until the first directory listing is delivered. -/
def initModel : model :=
  ⟨[], 0, ⟨0, 0, 0, 0, 0⟩, ⟨"", "", false⟩, 0, 0, false, false, false, false⟩

/-- States reachable from the initial model by a sequence of processed
events. -/
def reach (env : Env) (es : List Event) : Option model :=
  applyEvents env initModel es

/-! Small facts about the collaborator operations: the text-input routing
never changes the focus flag, and `fixCursor` / `fixViewport(false)` only
touch the cursor / the viewport respectively. -/

@[simp] lemma textinputUpdate_Focused (msg : Event) (t : TextInputModel) :
    (textinputUpdate msg t).Focused = t.Focused := by
  unfold textinputUpdate
  cases msg
  · dsimp
    split_ifs <;> rfl
  · rfl
  · rfl

@[simp] lemma routeModel_Files (msg : Event) (m : model) :
    (routeModel msg m).Files = m.Files := rfl

@[simp] lemma routeModel_Cursor (msg : Event) (m : model) :
    (routeModel msg m).Cursor = m.Cursor := rfl

@[simp] lemma routeModel_Viewport (msg : Event) (m : model) :
    (routeModel msg m).Viewport = m.Viewport := rfl

@[simp] lemma routeModel_Move (msg : Event) (m : model) :
    (routeModel msg m).Move = m.Move := rfl

@[simp] lemma routeModel_Rename (msg : Event) (m : model) :
    (routeModel msg m).Rename = m.Rename := rfl

@[simp] lemma routeModel_Delete (msg : Event) (m : model) :
    (routeModel msg m).Delete = m.Delete := rfl

@[simp] lemma routeModel_ShowHelp (msg : Event) (m : model) :
    (routeModel msg m).ShowHelp = m.ShowHelp := rfl

@[simp] lemma routeModel_Focused (msg : Event) (m : model) :
    (routeModel msg m).TextInput.Focused = m.TextInput.Focused := by
  unfold routeModel
  simp

@[simp] lemma blur_Focused (t : TextInputModel) : (blur t).Focused = false := rfl

@[simp] lemma blur_Value (t : TextInputModel) : (blur t).Value = t.Value := rfl

@[simp] lemma focusWith_Focused (p : String) (t : TextInputModel) :
    (focusWith p t).Focused = true := rfl

@[simp] lemma focusWith_Value (p : String) (t : TextInputModel) :
    (focusWith p t).Value = t.Value := rfl

@[simp] lemma fixCursor_Files (m : model) : (fixCursor m).Files = m.Files := by
  unfold fixCursor; split_ifs <;> rfl

@[simp] lemma fixCursor_TextInput (m : model) :
    (fixCursor m).TextInput = m.TextInput := by
  unfold fixCursor; split_ifs <;> rfl

@[simp] lemma fixCursor_Move (m : model) : (fixCursor m).Move = m.Move := by
  unfold fixCursor; split_ifs <;> rfl

@[simp] lemma fixCursor_Rename (m : model) : (fixCursor m).Rename = m.Rename := by
  unfold fixCursor; split_ifs <;> rfl

@[simp] lemma fixCursor_Delete (m : model) : (fixCursor m).Delete = m.Delete := by
  unfold fixCursor; split_ifs <;> rfl

@[simp] lemma fixCursor_ShowHelp (m : model) : (fixCursor m).ShowHelp = m.ShowHelp := by
  unfold fixCursor; split_ifs <;> rfl

@[simp] lemma fixViewport_Files (m : model) (b : Bool) :
    (fixViewport m b).Files = m.Files := by
  unfold fixViewport; split_ifs <;> rfl

@[simp] lemma fixViewport_TextInput (m : model) (b : Bool) :
    (fixViewport m b).TextInput = m.TextInput := by
  unfold fixViewport; split_ifs <;> rfl

@[simp] lemma fixViewport_Move (m : model) (b : Bool) :
    (fixViewport m b).Move = m.Move := by
  unfold fixViewport; split_ifs <;> rfl

@[simp] lemma fixViewport_Rename (m : model) (b : Bool) :
    (fixViewport m b).Rename = m.Rename := by
  unfold fixViewport; split_ifs <;> rfl

@[simp] lemma fixViewport_Delete (m : model) (b : Bool) :
    (fixViewport m b).Delete = m.Delete := by
  unfold fixViewport; split_ifs <;> rfl

@[simp] lemma fixViewport_ShowHelp (m : model) (b : Bool) :
    (fixViewport m b).ShowHelp = m.ShowHelp := by
  unfold fixViewport; split_ifs <;> rfl

@[simp] lemma fixViewport_false_Cursor (m : model) :
    (fixViewport m false).Cursor = m.Cursor := by
  unfold fixViewport; split_ifs <;> simp_all

/-- `fixCursor` always leaves the cursor inside the listing when the listing
is non-empty, whatever the incoming cursor was. -/
lemma fixCursor_Cursor_bounds (m : model) (h : m.Files ≠ []) :
    0 ≤ (fixCursor m).Cursor ∧ (fixCursor m).Cursor < (m.Files.length : Int) := by
  have hl : 0 < m.Files.length := List.length_pos.mpr h
  unfold fixCursor
  split_ifs with h1 h2
  · refine ⟨le_refl 0, ?_⟩
    show (0 : Int) < (m.Files.length : Int)
    omega
  · constructor
    · show (0 : Int) ≤ (m.Files.length : Int) - 1
      omega
    · show (m.Files.length : Int) - 1 < (m.Files.length : Int)
      omega
  · exact ⟨by omega, by omega⟩

/-- The combination the up/down handlers apply to the model when the text
input is not focused leaves the cursor inside a non-empty listing. -/
lemma nav_core (m : model) (c : Int) (hne : m.Files ≠ []) :
    0 ≤ (fixViewport (fixCursor { m with Cursor := c }) false).Cursor ∧
    (fixViewport (fixCursor { m with Cursor := c }) false).Cursor < (m.Files.length : Int) := by
  have h := fixCursor_Cursor_bounds { m with Cursor := c } (by simpa using hne)
  simpa using h

/-- One up/down (or k/j) key event keeps the listing and, when the listing is
non-empty, puts the cursor inside it whatever the incoming cursor was. -/
lemma Update_nav_step (env : Env) (m : model) (k : String)
    (hk : k = "up" ∨ k = "k" ∨ k = "down" ∨ k = "j")
    (hne : m.Files ≠ []) (h0 : 0 ≤ m.Cursor) (h1 : m.Cursor < (m.Files.length : Int))
    (r : UpdateResult) (h : Update env m (.key k) = some r) :
    r.model.Files = m.Files ∧ 0 ≤ r.model.Cursor ∧ r.model.Cursor < (r.model.Files.length : Int) := by
  rcases hk with hk | hk | hk | hk <;> subst hk <;>
    simp only [Update, updateKey, upCase, downCase, String.reduceEq, or_self, or_false,
      false_or, if_false, if_true, reduceIte, Option.some.injEq] at h <;> subst h <;>
    by_cases hf : m.TextInput.Focused = false <;>
    simp only [hf, if_true, if_false, reduceIte, routeModel_Files, routeModel_Cursor,
      fixViewport_Files, fixCursor_Files] <;>
    first
      | exact ⟨trivial, (nav_core m _ hne).1, by simpa using (nav_core m _ hne).2⟩
      | exact ⟨trivial, (nav_core m _ hne).1, (nav_core m _ hne).2⟩
      | exact ⟨rfl, h0, h1⟩

/-- Claim C1 (amended): after any sequence of up/down navigation key events
from a model with a non-empty listing and an in-range cursor, the listing is
unchanged and the cursor satisfies `0 <= cursor < len(listing)`.  (The
visible-band half of the original claim is refuted by
`C1_band_counterexample`.) -/
theorem C1_cursor_bounds_after_nav (env : Env) :
    ∀ (ks : List String) (m m' : model),
      (∀ k ∈ ks, k = "up" ∨ k = "k" ∨ k = "down" ∨ k = "j") →
      m.Files ≠ [] → 0 ≤ m.Cursor → m.Cursor < (m.Files.length : Int) →
      applyEvents env m (ks.map Event.key) = some m' →
      m'.Files = m.Files ∧ 0 ≤ m'.Cursor ∧ m'.Cursor < (m'.Files.length : Int) := by
  intro ks
  induction ks with
  | nil =>
    intro m m' _ hne h0 h1 h
    simp only [List.map_nil, applyEvents, Option.some.injEq] at h
    subst h
    exact ⟨rfl, h0, h1⟩
  | cons k ks ih =>
    intro m m' hks hne h0 h1 h
    have hk := hks k (List.mem_cons_self k ks)
    simp only [List.map_cons, applyEvents] at h
    rcases hr : Update env m (.key k) with _ | r
    · rw [hr] at h; cases h
    · rw [hr] at h
      obtain ⟨hF, h0', h1'⟩ := Update_nav_step env m k hk hne h0 h1 r hr
      have hne' : r.model.Files ≠ [] := by rw [hF]; exact hne
      obtain ⟨hF', h0'', h1''⟩ :=
        ih r.model m' (fun k2 hk2 => hks k2 (List.mem_cons_of_mem _ hk2)) hne' h0' h1' h
      exact ⟨by rw [hF', hF], h0'', h1''⟩

/-- A browse-mode model with four entries, cursor 0, viewport height 2 at
offset 0 (content: the four listing lines), used for concrete runs. -/
def c1m : model :=
  ⟨[⟨"a", false⟩, ⟨"b", true⟩, ⟨"c", false⟩, ⟨"d", false⟩], 0,
   ⟨80, 2, 0, 0, 4⟩, ⟨"", "", false⟩, 80, 3, false, false, false, false⟩

/-- The model three down key events produce from `c1m`. -/
def c1r : model :=
  ⟨[⟨"a", false⟩, ⟨"b", true⟩, ⟨"c", false⟩, ⟨"d", false⟩], 3,
   ⟨80, 2, 2, 0, 4⟩, ⟨"", "", false⟩, 80, 3, false, false, false, false⟩

/-- Witness for claim C1: three down key events on `c1m` reach `c1r`, whose
cursor is inside the listing. -/
theorem C1_cursor_bounds_witness :
    c1r.Files = c1m.Files ∧ 0 ≤ c1r.Cursor ∧ c1r.Cursor < (c1r.Files.length : Int) :=
  C1_cursor_bounds_after_nav env0 ["down", "down", "down"] c1m c1r
    (by decide) (by decide) (by decide) (by decide) (by decide)

/-- Counterexample for claim C1 as stated: from `c1m` (non-empty listing,
cursor 0 inside the visible band `[0,1]`), a single up key event wraps the
cursor to 3 while the viewport scrolls only one line to offset 1 with height
2, so `cursor <= offset + height - 1` fails. -/
theorem C1_band_counterexample :
    (Update env0 c1m (Event.key "up")).map
        (fun r => (r.model.Cursor, r.model.Viewport.YOffset, r.model.Viewport.Height))
      = some (3, 1, 2) ∧ ¬((3 : Int) ≤ 1 + 2 - 1) := by
  decide

/-- The cursor an up key event leaves behind when the input is unfocused:
the decrement followed by `fixCursor`. -/
lemma Update_up_cursor (env : Env) (m : model) (hf : m.TextInput.Focused = false) :
    (Update env m (.key "up")).map (fun r => r.model.Cursor)
      = some ((fixCursor { m with Cursor := m.Cursor - 1 }).Cursor) := by
  simp [Update, updateKey, upCase, downCase, hf]

/-- The cursor a down key event leaves behind when the input is unfocused:
the increment followed by `fixCursor`. -/
lemma Update_down_cursor (env : Env) (m : model) (hf : m.TextInput.Focused = false) :
    (Update env m (.key "down")).map (fun r => r.model.Cursor)
      = some ((fixCursor { m with Cursor := m.Cursor + 1 }).Cursor) := by
  simp [Update, updateKey, upCase, downCase, hf]

/-- Claim C2: navigation is circular — with a non-empty listing and the text
input unfocused, an up key event at cursor 0 yields cursor `len(listing)-1`,
and a down key event at the last index yields cursor 0. -/
theorem C2_circular_nav (env : Env) (m : model) (hne : m.Files ≠ [])
    (hf : m.TextInput.Focused = false) :
    (Update env { m with Cursor := 0 } (.key "up")).map (fun r => r.model.Cursor)
        = some ((m.Files.length : Int) - 1) ∧
    (Update env { m with Cursor := (m.Files.length : Int) - 1 } (.key "down")).map
        (fun r => r.model.Cursor) = some 0 := by
  have hl : 0 < m.Files.length := List.length_pos.mpr hne
  constructor
  · rw [Update_up_cursor env _ (by simpa using hf)]
    unfold fixCursor
    rw [if_neg (by simp), if_pos (by simp)]
  · rw [Update_down_cursor env _ (by simpa using hf)]
    unfold fixCursor
    rw [if_pos (by simp)]

/-- Witness for claim C2 at the concrete model `c1m` (4 entries). -/
theorem C2_circular_nav_witness :
    (Update env0 { c1m with Cursor := 0 } (Event.key "up")).map (fun r => r.model.Cursor)
        = some ((c1m.Files.length : Int) - 1) ∧
    (Update env0 { c1m with Cursor := (c1m.Files.length : Int) - 1 } (Event.key "down")).map
        (fun r => r.model.Cursor) = some 0 :=
  C2_circular_nav env0 c1m (by decide) rfl

/-- A model whose listing is empty, as after a failed or empty directory
listing, with cursor 0. -/
def c3m : model :=
  ⟨[], 0, ⟨80, 2, 0, 0, 0⟩, ⟨"", "", false⟩, 80, 3, false, false, false, false⟩

/-- Claim C3 (code bug): with an empty listing and cursor 0, the enter/space
handler evaluates `m.Files[m.Cursor]` unguarded, which is an index out of
range at runtime (modelled as `none`); moreover an up key event sets the
cursor to -1, not 0, because `fixCursor` assigns `len(Files)-1 = -1`. -/
theorem C3_empty_listing_unguarded :
    Update env0 c3m (Event.key "enter") = none ∧
    (Update env0 c3m (Event.key "up")).map (fun r => r.model.Cursor) = some (-1) := by
  decide

/-- Claim C4 (amended): in delete-confirm mode (Delete flag set, input
focused, the other prompt flags clear) whose cursor indexes a valid entry,
an enter commit with buffer value other than "y" issues exactly one plain
re-list of the current directory, invokes no delete operation, replaces the
listing with the re-list result, and clears the Delete flag.  (Over an empty
listing the commit instead crashes on the unguarded index — see
`C4_empty_delete_counterexample`.) -/
theorem C4_delete_cancel_relists (env : Env) (m : model) (e : Entry)
    (hD : m.Delete = true) (hR : m.Rename = false) (hM : m.Move = false)
    (hF : m.TextInput.Focused = true) (hv : m.TextInput.Value ≠ "y")
    (hidx : idx? m.Files m.Cursor = some e) :
    Update env m (.key "enter")
      = some ⟨{ m with Files := env.fsList "./", TextInput := blur m.TextInput,
                       Delete := false },
              [Effect.getListing "./"], false⟩ := by
  simp only [Update, updateKey, enterCase, String.reduceEq, or_self, or_false, false_or,
    reduceIte]
  rw [hidx]
  by_cases hd : e.IsDir = true <;>
    simp [hD, hR, hM, hF, hv, hd, routeModel, textinputUpdate]

/-- A delete-confirm model: one plain file, cursor 0, Delete flag set, the
input focused holding "n". -/
def c4m : model :=
  ⟨[⟨"f.txt", false⟩], 0, ⟨80, 2, 0, 0, 1⟩, ⟨"n", "[y/n]", true⟩, 80, 3,
   false, false, true, false⟩

/-- Witness for claim C4 at the concrete delete-confirm model `c4m`. -/
theorem C4_delete_cancel_witness :
    Update env0 c4m (Event.key "enter")
      = some ⟨{ c4m with Files := env0.fsList "./", TextInput := blur c4m.TextInput,
                         Delete := false },
              [Effect.getListing "./"], false⟩ :=
  C4_delete_cancel_relists env0 c4m ⟨"f.txt", false⟩ rfl rfl rfl rfl (by decide) rfl

/-- The delete-confirm state reached by pressing "d" from the initial model
in an empty directory: Delete set, input focused holding "d", empty listing. -/
def c4em : model :=
  ⟨[], 0, ⟨0, 0, 0, 0, 0⟩, ⟨"d", "[y/n]", true⟩, 0, 0, false, false, true, false⟩

/-- Counterexample for claim C4 as stated: `c4em` is a reachable
delete-confirm model whose buffer "d" differs from "y", yet the enter commit
does not issue a plain re-list — it evaluates the unguarded
`m.Files[m.Cursor]` on the empty listing and crashes (`none`). -/
theorem C4_empty_delete_counterexample :
    reach env0 [Event.key "d"] = some c4em ∧ c4em.Delete = true ∧
    c4em.TextInput.Value ≠ "y" ∧ Update env0 c4em (Event.key "enter") = none := by
  decide

/-- Claim C5 (amended): a listing-completion message replaces the listing and
returns at once; the cursor, the viewport offset, the mode flags and the
text input are all left unchanged (they are not reset). -/
theorem C5_fileStatus_replaces_listing (env : Env) (m : model) (files : List Entry) :
    Update env m (.fileStatus files) = some ⟨{ m with Files := files }, [], false⟩ := rfl

/-- A model with cursor 2 and viewport offset 1. -/
def c5m : model :=
  ⟨[⟨"a", false⟩, ⟨"b", true⟩, ⟨"c", false⟩, ⟨"d", false⟩], 2,
   ⟨80, 2, 1, 0, 4⟩, ⟨"", "", false⟩, 80, 3, false, false, false, false⟩

/-- Counterexample for claim C5 as stated: processing a listing-completion
message on `c5m` (cursor 2, offset 1) leaves cursor 2 and offset 1 — neither
is reset to 0. -/
theorem C5_no_reset_counterexample :
    (Update env0 c5m (Event.fileStatus [⟨"only", false⟩])).map
        (fun r => (r.model.Cursor, r.model.Viewport.YOffset))
      = some (2, 1) ∧ (2 : Int) ≠ 0 ∧ (1 : Int) ≠ 0 := by
  decide

/-- Claim C6 (amended): entering any prompt mode (m, r or d with the input
unfocused) sets that mode's flag, its mode-specific placeholder and focuses
the input, but never clears the buffer value — the mode key's own character
is even appended to it by the unconditional text-input routing; escape
returns every mode flag to false and blurs the input with the value
unchanged; committing an active rename, move, or delete prompt with enter
(input focused, exactly that flag set, cursor on a valid entry) issues the
corresponding job plus a re-list, clears the committed flag and blurs the
input, again leaving the value unchanged; and with an out-of-range cursor
(empty listing) the commit instead crashes on the unguarded index. -/
theorem C6_prompt_buffer_kept (env : Env) (m1 m2 m3 m4 m6 m7 : model)
    (e3 e6 e7 : Entry)
    (h1 : m1.TextInput.Focused = false)
    (h3R : m3.Rename = true) (h3F : m3.TextInput.Focused = true)
    (h3i : idx? m3.Files m3.Cursor = some e3)
    (h6R : m6.Rename = false) (h6M : m6.Move = true) (h6F : m6.TextInput.Focused = true)
    (h6i : idx? m6.Files m6.Cursor = some e6)
    (h7R : m7.Rename = false) (h7M : m7.Move = false) (h7D : m7.Delete = true)
    (h7F : m7.TextInput.Focused = true) (h7i : idx? m7.Files m7.Cursor = some e7)
    (h4i : idx? m4.Files m4.Cursor = none) :
    Update env m1 (.key "m")
        = some ⟨{ m1 with Move := true,
                          TextInput := ⟨m1.TextInput.Value ++ "m", "/usr/share/", true⟩ },
                [], false⟩ ∧
    Update env m1 (.key "r")
        = some ⟨{ m1 with Rename := true,
                          TextInput := ⟨m1.TextInput.Value ++ "r", "newfilename.ex", true⟩ },
                [], false⟩ ∧
    Update env m1 (.key "d")
        = some ⟨{ m1 with Delete := true,
                          TextInput := ⟨m1.TextInput.Value ++ "d", "[y/n]", true⟩ },
                [], false⟩ ∧
    Update env m2 (.key "esc")
        = some ⟨{ m2 with Move := false, Rename := false, Delete := false,
                          ShowHelp := false, TextInput := blur m2.TextInput },
                [], false⟩ ∧
    Update env m3 (.key "enter")
        = some ⟨{ m3 with Files := env.fsList "./", TextInput := blur m3.TextInput,
                          Rename := false },
                [Effect.renameEff e3.Name m3.TextInput.Value, Effect.getListing "./"],
                false⟩ ∧
    Update env m6 (.key "enter")
        = some ⟨{ m6 with Files := env.fsList "./", TextInput := blur m6.TextInput,
                          Move := false },
                (if e6.IsDir = true then
                  [Effect.moveDirEff e6.Name m6.TextInput.Value, Effect.getListing "./"]
                else
                  [Effect.copyFileEff e6.Name m6.TextInput.Value true,
                   Effect.getListing "./"]),
                false⟩ ∧
    Update env m7 (.key "enter")
        = some ⟨{ m7 with Files := env.fsList "./", TextInput := blur m7.TextInput,
                          Delete := false },
                (if m7.TextInput.Value = "y" then
                  [(if e7.IsDir = true then Effect.deleteDirEff e7.Name
                    else Effect.deleteFileEff e7.Name),
                   Effect.getListing "./"]
                else [Effect.getListing "./"]),
                false⟩ ∧
    Update env m4 (.key "enter") = none := by
  refine ⟨?_, ?_, ?_, ?_, ?_, ?_, ?_, ?_⟩
  · simp [Update, updateKey, moveKeyCase, h1, routeModel, textinputUpdate, focusWith]
    exact fun hc => absurd (by decide) hc
  · simp [Update, updateKey, renameKeyCase, h1, routeModel, textinputUpdate, focusWith]
    exact fun hc => absurd (by decide) hc
  · simp [Update, updateKey, deleteKeyCase, h1, routeModel, textinputUpdate, focusWith]
    exact fun hc => absurd (by decide) hc
  · simp [Update, updateKey, escCase, routeModel, textinputUpdate, blur]
  · simp only [Update, updateKey, enterCase, String.reduceEq, or_self, or_false, false_or,
      reduceIte]
    rw [h3i]
    simp [h3R, h3F, routeModel, textinputUpdate]
  · simp only [Update, updateKey, enterCase, String.reduceEq, or_self, or_false, false_or,
      reduceIte]
    rw [h6i]
    by_cases hd : e6.IsDir = true <;>
      simp [h6R, h6M, h6F, hd, routeModel, textinputUpdate]
  · simp only [Update, updateKey, enterCase, String.reduceEq, or_self, or_false, false_or,
      reduceIte]
    rw [h7i]
    by_cases hd : e7.IsDir = true <;> by_cases hy : m7.TextInput.Value = "y" <;>
      simp [h7R, h7M, h7D, h7F, hd, hy, routeModel, textinputUpdate]
  · simp only [Update, updateKey, enterCase, String.reduceEq, or_self, or_false, false_or,
      reduceIte]
    rw [h4i]

/-- A browse model whose input already holds "old". -/
def c6m : model :=
  ⟨[⟨"a", false⟩, ⟨"b", true⟩, ⟨"c", false⟩, ⟨"d", false⟩], 0,
   ⟨80, 2, 0, 0, 4⟩, ⟨"old", "", false⟩, 80, 3, false, false, false, false⟩

/-- Counterexample for claim C6 as stated: pressing the rename key on `c6m`
enters rename mode with buffer "oldr" — the buffer was not cleared (the "r"
was even appended to it). -/
theorem C6_buffer_not_cleared_counterexample :
    (Update env0 c6m (Event.key "r")).map
        (fun r => (r.model.Rename, r.model.TextInput.Value))
      = some (true, "oldr") ∧ "oldr" ≠ "" := by
  decide

/-- A rename-prompt model: cursor on "a", Rename flag set, focused input
holding "x.txt". -/
def c6r : model :=
  ⟨[⟨"a", false⟩, ⟨"b", true⟩], 0, ⟨80, 2, 0, 0, 2⟩,
   ⟨"x.txt", "newfilename.ex", true⟩, 80, 3, false, true, false, false⟩

/-- A move-prompt model: cursor on the directory "sub", Move flag set,
focused input holding "/tmp/". -/
def c6mv : model :=
  ⟨[⟨"sub", true⟩], 0, ⟨80, 2, 0, 0, 1⟩, ⟨"/tmp/", "/usr/share/", true⟩, 80, 3,
   true, false, false, false⟩

/-- Witness for claim C6 at concrete models: entering each prompt mode from
`c6m`, escaping from `c4m`, committing a rename from `c6r`, a move from
`c6mv`, a delete-cancel from `c4m`, and the empty-listing commit crash on
`c3m`. -/
theorem C6_prompt_buffer_witness :
    Update env0 c6m (Event.key "m")
        = some ⟨{ c6m with Move := true,
                           TextInput := ⟨c6m.TextInput.Value ++ "m", "/usr/share/", true⟩ },
                [], false⟩ ∧
    Update env0 c6m (Event.key "r")
        = some ⟨{ c6m with Rename := true,
                           TextInput := ⟨c6m.TextInput.Value ++ "r", "newfilename.ex", true⟩ },
                [], false⟩ ∧
    Update env0 c6m (Event.key "d")
        = some ⟨{ c6m with Delete := true,
                           TextInput := ⟨c6m.TextInput.Value ++ "d", "[y/n]", true⟩ },
                [], false⟩ ∧
    Update env0 c4m (Event.key "esc")
        = some ⟨{ c4m with Move := false, Rename := false, Delete := false,
                           ShowHelp := false, TextInput := blur c4m.TextInput },
                [], false⟩ ∧
    Update env0 c6r (Event.key "enter")
        = some ⟨{ c6r with Files := env0.fsList "./", TextInput := blur c6r.TextInput,
                           Rename := false },
                [Effect.renameEff (Entry.mk "a" false).Name c6r.TextInput.Value,
                 Effect.getListing "./"],
                false⟩ ∧
    Update env0 c6mv (Event.key "enter")
        = some ⟨{ c6mv with Files := env0.fsList "./", TextInput := blur c6mv.TextInput,
                            Move := false },
                (if (Entry.mk "sub" true).IsDir = true then
                  [Effect.moveDirEff (Entry.mk "sub" true).Name c6mv.TextInput.Value,
                   Effect.getListing "./"]
                else
                  [Effect.copyFileEff (Entry.mk "sub" true).Name c6mv.TextInput.Value true,
                   Effect.getListing "./"]),
                false⟩ ∧
    Update env0 c4m (Event.key "enter")
        = some ⟨{ c4m with Files := env0.fsList "./", TextInput := blur c4m.TextInput,
                           Delete := false },
                (if c4m.TextInput.Value = "y" then
                  [(if (Entry.mk "f.txt" false).IsDir = true then
                      Effect.deleteDirEff (Entry.mk "f.txt" false).Name
                    else Effect.deleteFileEff (Entry.mk "f.txt" false).Name),
                   Effect.getListing "./"]
                else [Effect.getListing "./"]),
                false⟩ ∧
    Update env0 c3m (Event.key "enter") = none :=
  C6_prompt_buffer_kept env0 c6m c4m c6r c3m c6mv c4m ⟨"a", false⟩ ⟨"sub", true⟩ ⟨"f.txt", false⟩
    rfl rfl rfl rfl rfl rfl rfl rfl rfl rfl rfl rfl rfl rfl

/-- Claim C9 (amended): a resize event leaves the cursor, all mode flags and
the text input unchanged, stores the new screen dimensions, and installs a
fresh viewport of the new width and height minus one with offset 0; the
scroll invariant is not re-validated. -/
theorem C9_resize_keeps_cursor_and_mode (env : Env) (m : model) (w h : Int) :
    Update env m (.resize w h)
      = some ⟨{ m with ScreenWidth := w, ScreenHeight := h,
                       Viewport := ⟨w, h - 1, 0, 0, 0⟩ },
              [], false⟩ := rfl

/-- A model with cursor 3 inside the visible band `[2,3]` of a height-2
viewport at offset 2. -/
def c9m : model :=
  ⟨[⟨"a", false⟩, ⟨"b", true⟩, ⟨"c", false⟩, ⟨"d", false⟩], 3,
   ⟨80, 2, 2, 0, 4⟩, ⟨"", "", false⟩, 80, 3, false, false, false, false⟩

/-- Counterexample for the re-validation half of claim C9 as stated: resizing
`c9m` (cursor 3, offset 2, height 2, cursor in band) to a screen height of 3
produces offset 0 and height 2, leaving cursor 3 outside the visible band —
the scroll invariant is not re-validated. -/
theorem C9_no_revalidate_counterexample :
    (Update env0 c9m (Event.resize 100 3)).map
        (fun r => (r.model.Cursor, r.model.Viewport.YOffset, r.model.Viewport.Height))
      = some (3, 0, 2) ∧ ¬((3 : Int) ≤ 0 + 2 - 1) := by
  decide


/-- The mode-flag invariant of reachable states: each prompt flag implies the
input is focused, and no two prompt flags hold together. -/
def Inv (m : model) : Prop :=
  (m.Move = true → m.TextInput.Focused = true) ∧
  (m.Rename = true → m.TextInput.Focused = true) ∧
  (m.Delete = true → m.TextInput.Focused = true) ∧
  ¬(m.Move = true ∧ m.Rename = true) ∧
  ¬(m.Move = true ∧ m.Delete = true) ∧
  ¬(m.Rename = true ∧ m.Delete = true)

/-- `Inv` only looks at the three prompt flags and the focus flag. -/
lemma Inv_of_fields (m m' : model) (hM : m'.Move = m.Move) (hR : m'.Rename = m.Rename)
    (hD : m'.Delete = m.Delete) (hF : m'.TextInput.Focused = m.TextInput.Focused)
    (hI : Inv m) : Inv m' := by
  unfold Inv at hI ⊢
  rw [hM, hR, hD, hF]
  exact hI

/-- The up handler changes neither the mode flags nor the focus flag. -/
lemma upCase_fields (m : model) (k : String) (r : UpdateResult)
    (h : upCase m k = some r) :
    r.model.ShowHelp = m.ShowHelp ∧ r.model.Move = m.Move ∧ r.model.Rename = m.Rename ∧
    r.model.Delete = m.Delete ∧ r.model.TextInput.Focused = m.TextInput.Focused := by
  unfold upCase at h
  injection h with h
  subst h
  by_cases hf : m.TextInput.Focused = false <;> simp [hf]

/-- The down handler changes neither the mode flags nor the focus flag. -/
lemma downCase_fields (m : model) (k : String) (r : UpdateResult)
    (h : downCase m k = some r) :
    r.model.ShowHelp = m.ShowHelp ∧ r.model.Move = m.Move ∧ r.model.Rename = m.Rename ∧
    r.model.Delete = m.Delete ∧ r.model.TextInput.Focused = m.TextInput.Focused := by
  unfold downCase at h
  injection h with h
  subst h
  by_cases hf : m.TextInput.Focused = false <;> simp [hf]

/-- The enter/space handler keeps `ShowHelp` and preserves the mode-flag
invariant: a commit clears exactly the committed flag and blurs. -/
lemma enterCase_spec (env : Env) (m : model) (k : String) (r : UpdateResult)
    (h : enterCase env m k = some r) :
    r.model.ShowHelp = m.ShowHelp ∧ (Inv m → Inv r.model) := by
  unfold enterCase at h
  repeat' split at h
  all_goals try exact Option.noConfusion h
  all_goals (injection h with h; subst h)
  all_goals refine ⟨by simp, fun hI => ?_⟩
  all_goals unfold Inv at hI ⊢
  all_goals simp_all

/-- The parent-directory handler changes neither the mode flags nor the
focus flag. -/
lemma parentCase_fields (env : Env) (m : model) (k : String) (r : UpdateResult)
    (h : parentCase env m k = some r) :
    r.model.ShowHelp = m.ShowHelp ∧ r.model.Move = m.Move ∧ r.model.Rename = m.Rename ∧
    r.model.Delete = m.Delete ∧ r.model.TextInput.Focused = m.TextInput.Focused := by
  unfold parentCase at h
  split at h <;> (injection h with h; subst h; simp)

/-- The move key keeps `ShowHelp` and preserves the mode-flag invariant. -/
lemma moveKeyCase_spec (m : model) (k : String) (r : UpdateResult)
    (h : moveKeyCase m k = some r) :
    r.model.ShowHelp = m.ShowHelp ∧ (Inv m → Inv r.model) := by
  unfold moveKeyCase at h
  split at h <;> (injection h with h; subst h)
  · refine ⟨by simp, fun hI => ?_⟩
    unfold Inv at hI ⊢
    simp_all
  · exact ⟨by simp, fun hI => Inv_of_fields m _ (by simp) (by simp) (by simp) (by simp) hI⟩

/-- The rename key keeps `ShowHelp` and preserves the mode-flag invariant. -/
lemma renameKeyCase_spec (m : model) (k : String) (r : UpdateResult)
    (h : renameKeyCase m k = some r) :
    r.model.ShowHelp = m.ShowHelp ∧ (Inv m → Inv r.model) := by
  unfold renameKeyCase at h
  split at h <;> (injection h with h; subst h)
  · refine ⟨by simp, fun hI => ?_⟩
    unfold Inv at hI ⊢
    simp_all
  · exact ⟨by simp, fun hI => Inv_of_fields m _ (by simp) (by simp) (by simp) (by simp) hI⟩

/-- The delete key keeps `ShowHelp` and preserves the mode-flag invariant. -/
lemma deleteKeyCase_spec (m : model) (k : String) (r : UpdateResult)
    (h : deleteKeyCase m k = some r) :
    r.model.ShowHelp = m.ShowHelp ∧ (Inv m → Inv r.model) := by
  unfold deleteKeyCase at h
  split at h <;> (injection h with h; subst h)
  · refine ⟨by simp, fun hI => ?_⟩
    unfold Inv at hI ⊢
    simp_all
  · exact ⟨by simp, fun hI => Inv_of_fields m _ (by simp) (by simp) (by simp) (by simp) hI⟩

/-- The help key sets `ShowHelp` and changes neither the prompt flags nor the
focus flag. -/
lemma helpCase_fields (env : Env) (m : model) (k : String) (r : UpdateResult)
    (h : helpCase env m k = some r) :
    r.model.ShowHelp = true ∧ r.model.Move = m.Move ∧ r.model.Rename = m.Rename ∧
    r.model.Delete = m.Delete ∧ r.model.TextInput.Focused = m.TextInput.Focused := by
  unfold helpCase at h
  injection h with h
  subst h
  simp

/-- The escape key clears every flag and blurs. -/
lemma escCase_fields (m : model) (k : String) (r : UpdateResult)
    (h : escCase m k = some r) :
    r.model.ShowHelp = false ∧ r.model.Move = false ∧ r.model.Rename = false ∧
    r.model.Delete = false ∧ r.model.TextInput.Focused = false := by
  unfold escCase at h
  injection h with h
  subst h
  simp

/-- What a key event does to `ShowHelp` and to the mode-flag invariant:
only escape clears `ShowHelp`, only the help key sets it, and every key
handler preserves `Inv`. -/
lemma Update_key_spec (env : Env) (m : model) (k : String) (r : UpdateResult)
    (h : Update env m (.key k) = some r) :
    (k ≠ "esc" → k ≠ "i" → r.model.ShowHelp = m.ShowHelp) ∧
    (k = "esc" → r.model.ShowHelp = false) ∧
    (k = "i" → r.model.ShowHelp = true) ∧
    (Inv m → Inv r.model) := by
  simp only [Update] at h
  split at h
  case isTrue hq =>
    injection h with h
    subst h
    refine ⟨fun _ _ => rfl, fun he => ?_, fun hi => ?_, fun hI => hI⟩
    · subst he; rcases hq with hx | hx <;> exact absurd hx (by decide)
    · subst hi; rcases hq with hx | hx <;> exact absurd hx (by decide)
  case isFalse hq =>
    unfold updateKey at h
    split at h
    case isTrue hc =>
      exact absurd (hc.elim (fun hx => Or.inr hx) (fun hx => Or.inl hx)) hq
    case isFalse =>
    split at h
    case isTrue hc =>
      have hf := upCase_fields m k r h
      refine ⟨fun _ _ => hf.1, fun he => ?_, fun hi => ?_,
        fun hI => Inv_of_fields m _ hf.2.1 hf.2.2.1 hf.2.2.2.1 hf.2.2.2.2 hI⟩
      · subst he; rcases hc with hx | hx <;> exact absurd hx (by decide)
      · subst hi; rcases hc with hx | hx <;> exact absurd hx (by decide)
    case isFalse =>
    split at h
    case isTrue hc =>
      have hf := downCase_fields m k r h
      refine ⟨fun _ _ => hf.1, fun he => ?_, fun hi => ?_,
        fun hI => Inv_of_fields m _ hf.2.1 hf.2.2.1 hf.2.2.2.1 hf.2.2.2.2 hI⟩
      · subst he; rcases hc with hx | hx <;> exact absurd hx (by decide)
      · subst hi; rcases hc with hx | hx <;> exact absurd hx (by decide)
    case isFalse =>
    split at h
    case isTrue hc =>
      have hf := enterCase_spec env m k r h
      refine ⟨fun _ _ => hf.1, fun he => ?_, fun hi => ?_, hf.2⟩
      · subst he; rcases hc with hx | hx <;> exact absurd hx (by decide)
      · subst hi; rcases hc with hx | hx <;> exact absurd hx (by decide)
    case isFalse =>
    split at h
    case isTrue hc =>
      have hf := parentCase_fields env m k r h
      refine ⟨fun _ _ => hf.1, fun he => ?_, fun hi => ?_,
        fun hI => Inv_of_fields m _ hf.2.1 hf.2.2.1 hf.2.2.2.1 hf.2.2.2.2 hI⟩
      · subst he; rcases hc with hx | hx <;> exact absurd hx (by decide)
      · subst hi; rcases hc with hx | hx <;> exact absurd hx (by decide)
    case isFalse =>
    split at h
    case isTrue hc =>
      have hf := moveKeyCase_spec m k r h
      refine ⟨fun _ _ => hf.1, fun he => ?_, fun hi => ?_, hf.2⟩
      · subst he; exact absurd hc (by decide)
      · subst hi; exact absurd hc (by decide)
    case isFalse =>
    split at h
    case isTrue hc =>
      have hf := renameKeyCase_spec m k r h
      refine ⟨fun _ _ => hf.1, fun he => ?_, fun hi => ?_, hf.2⟩
      · subst he; exact absurd hc (by decide)
      · subst hi; exact absurd hc (by decide)
    case isFalse =>
    split at h
    case isTrue hc =>
      have hf := deleteKeyCase_spec m k r h
      refine ⟨fun _ _ => hf.1, fun he => ?_, fun hi => ?_, hf.2⟩
      · subst he; exact absurd hc (by decide)
      · subst hi; exact absurd hc (by decide)
    case isFalse =>
    split at h
    case isTrue hc =>
      have hf := helpCase_fields env m k r h
      refine ⟨fun _ hi => absurd hc hi, fun he => ?_, fun _ => hf.1,
        fun hI => Inv_of_fields m _ hf.2.1 hf.2.2.1 hf.2.2.2.1 hf.2.2.2.2 hI⟩
      subst he; exact absurd hc (by decide)
    case isFalse hci =>
    split at h
    case isTrue hc =>
      have hf := escCase_fields m k r h
      refine ⟨fun he _ => absurd hc he, fun _ => hf.1, fun hi => ?_,
        fun hI => ?_⟩
      · subst hi; exact absurd hc (by decide)
      · unfold Inv
        rw [hf.2.1, hf.2.2.1, hf.2.2.2.1]
        simp
    case isFalse hc =>
      injection h with h
      subst h
      exact ⟨fun _ _ => rfl, fun he => absurd he hc, fun hi => absurd hi hci,
        fun hI => Inv_of_fields m _ (by simp) (by simp) (by simp) (by simp) hI⟩


/-- Claim C7 (amended): with help shown, every key other than escape leaves
`ShowHelp` set (help mode is not exited), while escape clears it. -/
theorem C7_help_exits_only_on_esc (env : Env) (m : model) (hS : m.ShowHelp = true) :
    (∀ (k : String) (r : UpdateResult), k ≠ "esc" →
        Update env m (.key k) = some r → r.model.ShowHelp = true) ∧
    (∀ r : UpdateResult, Update env m (.key "esc") = some r → r.model.ShowHelp = false) := by
  constructor
  · intro k r hk h
    have s := Update_key_spec env m k r h
    by_cases hi : k = "i"
    · exact s.2.2.1 hi
    · rw [s.1 hk hi]
      exact hS
  · intro r h
    exact (Update_key_spec env m "esc" r h).2.1 rfl

/-- A model in help mode (`ShowHelp` set). -/
def c7m : model :=
  ⟨[⟨"a", false⟩, ⟨"b", true⟩, ⟨"c", false⟩, ⟨"d", false⟩], 0,
   ⟨80, 2, 0, 0, 4⟩, ⟨"", "", false⟩, 80, 3, false, false, false, true⟩

/-- The result of the "k" key on `c7m` (an up navigation). -/
def c7r1 : UpdateResult :=
  ⟨⟨[⟨"a", false⟩, ⟨"b", true⟩, ⟨"c", false⟩, ⟨"d", false⟩], 3,
    ⟨80, 2, 1, 0, 4⟩, ⟨"", "", false⟩, 80, 3, false, false, false, true⟩, [], false⟩

/-- The result of the escape key on `c7m`. -/
def c7r2 : UpdateResult :=
  ⟨⟨[⟨"a", false⟩, ⟨"b", true⟩, ⟨"c", false⟩, ⟨"d", false⟩], 0,
    ⟨80, 2, 0, 0, 4⟩, ⟨"", "", false⟩, 80, 3, false, false, false, false⟩, [], false⟩

/-- Witness for claim C7: on `c7m`, the "k" key leaves help shown and escape
clears it. -/
theorem C7_help_exit_witness : c7r1.model.ShowHelp = true ∧ c7r2.model.ShowHelp = false :=
  ⟨(C7_help_exits_only_on_esc env0 c7m rfl).1 "k" c7r1 (by decide) (by decide),
   (C7_help_exits_only_on_esc env0 c7m rfl).2 c7r2 (by decide)⟩

/-- Counterexample for claim C7 as stated: from help mode, the "k" key does
not return the model to Browse — `ShowHelp` stays true. -/
theorem C7_any_key_counterexample :
    (Update env0 c7m (Event.key "k")).map (fun r => r.model.ShowHelp) ≠ some false := by
  decide

/-- Claim C8 (amended): while the text input is focused, every key other than
the global quit keys (q, ctrl+c), the help key (i), cancel (esc) and commit
(enter, space) only routes the key to the text input: the rest of the model
is unchanged, no filesystem effect is issued and no quit is requested; in
particular the cursor does not move. -/
theorem C8_focused_keys_only_routed (env : Env) (m : model) (k : String)
    (hF : m.TextInput.Focused = true)
    (h1 : k ≠ "q") (h2 : k ≠ "ctrl+c") (h3 : k ≠ "i") (h4 : k ≠ "esc")
    (h5 : k ≠ "enter") (h6 : k ≠ " ") :
    Update env m (.key k) = some ⟨routeModel (.key k) m, [], false⟩ := by
  simp only [Update]
  rw [if_neg (by tauto)]
  unfold updateKey
  rw [if_neg (by tauto)]
  by_cases hu : k = "up" ∨ k = "k"
  · rw [if_pos hu]; unfold upCase; rw [if_neg (by simp [hF])]
  · rw [if_neg hu]
    by_cases hd : k = "down" ∨ k = "j"
    · rw [if_pos hd]; unfold downCase; rw [if_neg (by simp [hF])]
    · rw [if_neg hd]
      rw [if_neg (by tauto : ¬(k = "enter" ∨ k = " "))]
      by_cases hh : k = "h" ∨ k = "backspace"
      · rw [if_pos hh]; unfold parentCase; rw [if_neg (by simp [hF])]
      · rw [if_neg hh]
        by_cases hm : k = "m"
        · rw [if_pos hm]; unfold moveKeyCase; rw [if_neg (by simp [hF])]
        · rw [if_neg hm]
          by_cases hr : k = "r"
          · rw [if_pos hr]; unfold renameKeyCase; rw [if_neg (by simp [hF])]
          · rw [if_neg hr]
            by_cases hdd : k = "d"
            · rw [if_pos hdd]; unfold deleteKeyCase; rw [if_neg (by simp [hF])]
            · rw [if_neg hdd]
              rw [if_neg h3, if_neg h4]

/-- A delete-confirm model with a focused input holding "ab". -/
def c8m : model :=
  ⟨[⟨"a", false⟩, ⟨"b", true⟩, ⟨"c", false⟩, ⟨"d", false⟩], 0,
   ⟨80, 2, 0, 0, 4⟩, ⟨"ab", "[y/n]", true⟩, 80, 3, false, false, true, false⟩

/-- Witness for claim C8: on the focused model `c8m`, the "x" key only lands
in the text input buffer. -/
theorem C8_focused_routing_witness :
    Update env0 c8m (Event.key "x") = some ⟨routeModel (Event.key "x") c8m, [], false⟩ :=
  C8_focused_keys_only_routed env0 c8m "x" rfl (by decide) (by decide) (by decide)
    (by decide) (by decide) (by decide)

/-- Counterexample for claim C8 as stated: on the focused model `c8m`, the
"q" key — which is neither the reserved cancel key nor a commit key — is
interpreted as the global quit command and is not routed to the buffer (the
value stays "ab"). -/
theorem C8_quit_key_counterexample :
    Update env0 c8m (Event.key "q") = some ⟨c8m, [], true⟩ ∧
    "q" ≠ "esc" ∧ "q" ≠ "enter" ∧ "q" ≠ " " := by
  decide

/-- One `Update` step preserves the mode-flag invariant. -/
lemma Inv_Update (env : Env) (m : model) (e : Event) (r : UpdateResult)
    (h : Update env m e = some r) (hI : Inv m) : Inv r.model := by
  cases e with
  | key k => exact (Update_key_spec env m k r h).2.2.2 hI
  | fileStatus files =>
    simp only [Update, Option.some.injEq] at h
    subst h
    exact Inv_of_fields m _ rfl rfl rfl rfl hI
  | resize w hgt =>
    simp only [Update, Option.some.injEq] at h
    subst h
    exact Inv_of_fields m _ rfl rfl rfl (by simp) hI

/-- Every event sequence preserves the mode-flag invariant. -/
lemma Inv_applyEvents (env : Env) :
    ∀ (es : List Event) (m m' : model), Inv m → applyEvents env m es = some m' → Inv m' := by
  intro es
  induction es with
  | nil =>
    intro m m' hI h
    simp only [applyEvents, Option.some.injEq] at h
    subst h
    exact hI
  | cons e rest ih =>
    intro m m' hI h
    simp only [applyEvents] at h
    rcases hr : Update env m e with _ | r
    · rw [hr] at h; cases h
    · rw [hr] at h
      exact ih r.model m' (Inv_Update env m e r hr hI) h

/-- Claim C10: in every state reachable from the initial model, at most one
of the three prompt-mode flags (Move, Rename, Delete) is set. -/
theorem C10_at_most_one_prompt_flag (env : Env) (es : List Event) (m' : model)
    (h : reach env es = some m') :
    ¬(m'.Move = true ∧ m'.Rename = true) ∧ ¬(m'.Move = true ∧ m'.Delete = true) ∧
    ¬(m'.Rename = true ∧ m'.Delete = true) := by
  have h0 : Inv initModel := by
    unfold Inv initModel
    simp
  have hI := Inv_applyEvents env es initModel m' h0 h
  exact ⟨hI.2.2.2.1, hI.2.2.2.2.1, hI.2.2.2.2.2⟩

/-- The state one "d" key event reaches from the initial model. -/
def c10r : model :=
  ⟨[], 0, ⟨0, 0, 0, 0, 0⟩, ⟨"d", "[y/n]", true⟩, 0, 0, false, false, true, false⟩

/-- Witness for claim C10: after pressing "d" from the initial model, only
the Delete flag is set. -/
theorem C10_at_most_one_witness :
    ¬(c10r.Move = true ∧ c10r.Rename = true) ∧ ¬(c10r.Move = true ∧ c10r.Delete = true) ∧
    ¬(c10r.Rename = true ∧ c10r.Delete = true) :=
  C10_at_most_one_prompt_flag env0 [Event.key "d"] c10r (by decide)

end FM
